import Mathlib

/-
  Verification development for the beardantic repository: a declarative
  schema model for Polars DataFrames (models.py / schema.py) and a
  column-by-column validation engine (validators.py).

  The embedding below follows the canonical, feature-complete variant of
  the source (src/beardantic/models.py for the schema model and
  src/beardantic/validators.py for the validator), as the two duplicated
  module variants are reconciled by the specification.

  Runtime Polars type descriptors are modelled by the inductive type
  `PolarsType`; the Python code compares types through their string
  renderings (str(dtype)) and substring tests, which `PolarsType.render`
  and `sContains` reproduce.  Python `set` differences are modelled as
  order-deterministic dedup-and-filter lists (Python set iteration order
  is unspecified; the claims only constrain membership).  Python
  exceptions are modelled with `Except`.
-/

namespace Beardantic

/-- Time units of the Polars Datetime and Duration types. -/
inductive TimeUnit : Type where
  | ms
  | us
  | ns
deriving DecidableEq

def TimeUnit.render : TimeUnit → String
  | .ms => "ms"
  | .us => "us"
  | .ns => "ns"

/-- Runtime type descriptors of the Polars engine, as far as the validator
observes them (identity, string rendering, struct fields, list element). -/
inductive PolarsType : Type where
  | Int8
  | Int16
  | Int32
  | Int64
  | UInt8
  | UInt16
  | UInt32
  | UInt64
  | Float32
  | Float64
  | Boolean
  | Utf8
  | Date
  | Time
  | Binary
  | Duration (tu : TimeUnit)
  | Datetime (tu : TimeUnit) (tz : Option String)
  | Struct (fields : List (String × PolarsType))
  | ListT (elem : PolarsType)

/-- Rendering of an optional time zone, as Python shows it inside
`Datetime(time_unit=..., time_zone=...)`. -/
def renderTz : Option String → String
  | none => "None"
  | some z => "\x27" ++ z ++ "\x27"

mutual

/-- The Python string rendering `str(dtype)` of a Polars type, through
which validators.py performs all of its type comparisons. -/
def PolarsType.render : PolarsType → String
  | .Int8 => "Int8"
  | .Int16 => "Int16"
  | .Int32 => "Int32"
  | .Int64 => "Int64"
  | .UInt8 => "UInt8"
  | .UInt16 => "UInt16"
  | .UInt32 => "UInt32"
  | .UInt64 => "UInt64"
  | .Float32 => "Float32"
  | .Float64 => "Float64"
  | .Boolean => "Boolean"
  | .Utf8 => "Utf8"
  | .Date => "Date"
  | .Time => "Time"
  | .Binary => "Binary"
  | .Duration tu => "Duration(time_unit=\x27" ++ tu.render ++ "\x27)"
  | .Datetime tu tz =>
      "Datetime(time_unit=\x27" ++ tu.render ++ "\x27, time_zone=" ++ renderTz tz ++ ")"
  | .Struct fs => "Struct(\x7b" ++ renderFieldList fs ++ "\x7d)"
  | .ListT t => "List(" ++ t.render ++ ")"

/-- Rendering of a struct field dictionary, Python-dict style. -/
def renderFieldList : List (String × PolarsType) → String
  | [] => ""
  | [(n, t)] => "\x27" ++ n ++ "\x27: " ++ t.render
  | (n, t) :: rest => "\x27" ++ n ++ "\x27: " ++ t.render ++ ", " ++ renderFieldList rest

end

/-- Python substring containment: `needle in hay` on strings. -/
def sContains (hay needle : String) : Prop := needle.data <:+: hay.data

instance (hay needle : String) : Decidable (sContains hay needle) := by
  unfold sContains; infer_instance

/-- Modelled from the spec: the primitive-name-to-runtime-type table
`POLARS_DATA_TYPES` of the module constants.py, which is not present under
src/.  Per the specification (section 4.1) it maps every recognized
primitive type name (integer widths and signednesses, floating-point
precisions, boolean, string, date/time variants, binary) to the concrete
Polars type, and it does not contain the structural names struct/list,
which the schema model handles separately. -/
def POLARS_DATA_TYPES : List (String × PolarsType) :=
  [ ("int8", .Int8)
  , ("int16", .Int16)
  , ("int32", .Int32)
  , ("int64", .Int64)
  , ("uint8", .UInt8)
  , ("uint16", .UInt16)
  , ("uint32", .UInt32)
  , ("uint64", .UInt64)
  , ("float32", .Float32)
  , ("float64", .Float64)
  , ("boolean", .Boolean)
  , ("string", .Utf8)
  , ("utf8", .Utf8)
  , ("date", .Date)
  , ("datetime", .Datetime .us none)
  , ("time", .Time)
  , ("duration", .Duration .us)
  , ("binary", .Binary)
  ]

/-- Dictionary lookup `POLARS_DATA_TYPES[k]`, with `none` for a KeyError. -/
def lookupType (k : String) : Option PolarsType :=
  (POLARS_DATA_TYPES.find? (fun p => p.1 == k)).map (fun p => p.2)

/-- models.py SchemaField: one column, struct-member or list-element
descriptor.  `fields = []` stands for both a missing (None) and an empty
field list, which Python truthiness makes indistinguishable in the source. -/
inductive SchemaField : Type where
  | mk (name : String) (type : String) (nullable : Bool)
       (fields : List SchemaField) (element_type : Option String)

def SchemaField.name : SchemaField → String
  | .mk n _ _ _ _ => n

def SchemaField.type : SchemaField → String
  | .mk _ t _ _ _ => t

def SchemaField.nullable : SchemaField → Bool
  | .mk _ _ b _ _ => b

def SchemaField.fields : SchemaField → List SchemaField
  | .mk _ _ _ fs _ => fs

def SchemaField.element_type : SchemaField → Option String
  | .mk _ _ _ _ e => e

/-- ASCII lowering of one character, as Python str.lower acts on the
type names used here. -/
def lowerChar (c : Char) : Char :=
  if 'A' ≤ c ∧ c ≤ 'Z' then Char.ofNat (c.toNat + 32) else c

/-- Python str.lower, applied by the schema model to type names. -/
def pyLower (s : String) : String := ⟨s.data.map lowerChar⟩

/-- Python truthiness of the optional element_type string. -/
def truthyOpt : Option String → Bool
  | none => false
  | some s => s ≠ ""

/-- Python exceptions raised inside SchemaField.to_polars_type. -/
inductive PyErr : Type where
  | keyError (k : String)
  | valueError (m : String)

/-- Python str(e) of a caught exception: a KeyError shows the repr of its key. -/
def PyErr.message : PyErr → String
  | .keyError k => "\x27" ++ k ++ "\x27"
  | .valueError m => m

mutual

/-- models.py SchemaField.to_polars_type: the code inside the `try`
computes the type (struct, list-of-struct, list-of-primitive, or table
lookup), and the except handlers then rewrap a KeyError as ValueError
"Unknown data type: ..." and every other exception as ValueError
"Error converting schema type to Polars type: ...". -/
def toPolarsTypeExc : SchemaField → Except PyErr PolarsType
  | .mk _ ty _ fs et =>
    match
      (if pyLower ty == "struct" && !fs.isEmpty then
        (structFieldsDict fs).map PolarsType.Struct
      else if pyLower ty == "list" && truthyOpt et then
        if pyLower (et.getD "") == "struct" && !fs.isEmpty then
          (structFieldsDict fs).map (fun d => PolarsType.ListT (PolarsType.Struct d))
        else
          match lookupType (pyLower (et.getD "")) with
          | some t => .ok (.ListT t)
          | none =>
              .error (.valueError ("Invalid element type for list: " ++ (et.getD "")))
      else
        match lookupType (pyLower ty) with
        | some t => .ok t
        | none => .error (.keyError (pyLower ty))) with
    | .ok t => .ok t
    | .error (.keyError k) =>
        .error (.valueError ("Unknown data type: \x27" ++ k ++ "\x27"))
    | .error (.valueError m) =>
        .error (.valueError ("Error converting schema type to Polars type: " ++ m))
termination_by structural f => f

/-- The ordered field dictionary built by recursing into nested fields;
each recursive call goes through the exception-handling wrapper, exactly
as `field.to_polars_type()` does in the source. -/
def structFieldsDict : List SchemaField → Except PyErr (List (String × PolarsType))
  | [] => .ok []
  | f :: fs => do
      let t ← toPolarsTypeExc f
      let rest ← structFieldsDict fs
      .ok ((f.name, t) :: rest)
termination_by structural l => l

end

/-- Body of models.py SchemaField.to_polars_type (the code inside the
`try`), before the except handlers are applied. -/
def toPolarsTypeBody : SchemaField → Except PyErr PolarsType
  | .mk _ ty _ fs et =>
    if pyLower ty == "struct" && !fs.isEmpty then
      (structFieldsDict fs).map PolarsType.Struct
    else if pyLower ty == "list" && truthyOpt et then
      if pyLower (et.getD "") == "struct" && !fs.isEmpty then
        (structFieldsDict fs).map (fun d => PolarsType.ListT (PolarsType.Struct d))
      else
        match lookupType (pyLower (et.getD "")) with
        | some t => .ok (.ListT t)
        | none =>
            .error (.valueError ("Invalid element type for list: " ++ (et.getD "")))
    else
      match lookupType (pyLower ty) with
      | some t => .ok t
      | none => .error (.keyError (pyLower ty))

/-- models.py TableSchema: a named ordered column list. -/
structure TableSchema : Type where
  name : String
  columns : List SchemaField

def TableSchema.colNames (ts : TableSchema) : List String :=
  ts.columns.map SchemaField.name

/-- One column of the runtime dataset: its name, observed dtype and
null count, which is all the validator queries of the DataFrame. -/
structure DFColumn : Type where
  name : String
  dtype : PolarsType
  nulls : Nat

/-- The runtime dataset collaborator: an ordered sequence of columns. -/
structure DataFrame : Type where
  cols : List DFColumn

def DataFrame.columns (df : DataFrame) : List String :=
  df.cols.map DFColumn.name

def DataFrame.dtypeOf (df : DataFrame) (n : String) : Option PolarsType :=
  (df.cols.find? (fun c => c.name == n)).map (fun c => c.dtype)

def DataFrame.nullCountOf (df : DataFrame) (n : String) : Nat :=
  ((df.cols.find? (fun c => c.name == n)).map (fun c => c.nulls)).getD 0

/-- exceptions.py SchemaValidationError: a top-level message carrying the
full accumulated error list. -/
structure SchemaValidationError : Type where
  message : String
  errors : List String

def quoteS (s : String) : String := "\x27" ++ s ++ "\x27"

def mkMissingColsMsg (l : List String) : String :=
  "Missing columns: " ++ String.intercalate ", " l

def mkExtraColsMsg (l : List String) : String :=
  "Extra columns: " ++ String.intercalate ", " l

def mkTypeMismatchMsg (n : String) (d e : PolarsType) : String :=
  "Column " ++ quoteS n ++ " has type " ++ d.render ++ ", expected " ++ e.render

def mkStructTypeMsg (n : String) (d : PolarsType) : String :=
  "Column " ++ quoteS n ++ " has type " ++ d.render ++ ", expected a struct type"

def mkListTypeMsg (n : String) (d : PolarsType) : String :=
  "Column " ++ quoteS n ++ " has type " ++ d.render ++ ", expected a list type"

def mkStructMissingMsg (n : String) (l : List String) : String :=
  "Column " ++ quoteS n ++ " is missing struct fields: " ++ String.intercalate ", " l

def mkNullMsg (n : String) : String :=
  "Column " ++ quoteS n ++ " contains null values but is not nullable"

def mkCatchMsg (n : String) (e : String) : String :=
  "Error validating column " ++ quoteS n ++ ": " ++ e

def mkRaiseMsg (schemaName : String) : String :=
  "DataFrame validation failed for schema " ++ quoteS schemaName ++ "."

/-- Python set difference `set(xs) - set(ys)` determinized: each element of
`xs` once, keeping those not in `ys` (iteration order of a Python set is
unspecified; the claims only constrain membership in the result). -/
def setDiffNames (xs ys : List String) : List String :=
  xs.dedup.filter (fun n => decide (n ∉ ys))

/-- validators.py validate_simple_type: string-based family matching, then
exact rendering comparison. -/
def validate_simple_type (colName : String) (eStr dStr : String)
    (dT eT : PolarsType) : List String :=
  if (sContains eStr "Int" ∧ sContains dStr "Int") ∨
     (sContains eStr "UInt" ∧ sContains dStr "UInt") then []
  else if sContains eStr "Float" ∧ sContains dStr "Float" then []
  else if sContains eStr "Datetime" ∧ sContains dStr "Datetime" then []
  else if eStr ≠ dStr then [mkTypeMismatchMsg colName dT eT]
  else []

/-- Whether the Python object carries a `fields` attribute: of the runtime
type descriptors only an instantiated Struct does. -/
def hasFieldsAttr : PolarsType → Bool
  | .Struct _ => true
  | _ => false

/-- validators.py validate_struct_fields: shallow top-level field-name
difference; an introspection failure is swallowed (no error). -/
def validate_struct_fields (colName : String) (eT dT : PolarsType) : List String :=
  match eT, dT with
  | .Struct efs, .Struct afs =>
      if setDiffNames (efs.map Prod.fst) (afs.map Prod.fst) ≠ [] then
        [mkStructMissingMsg colName (setDiffNames (efs.map Prod.fst) (afs.map Prod.fst))]
      else []
  | _, _ => []

/-- The elif chain of validators.py validate_column that compares the
expected resolved type against the observed dtype (everything in
validate_column before the nullability check). -/
def columnTypeErrors (dT eT : PolarsType) (colName : String) : List String :=
  if ¬ sContains eT.render "List" ∧ ¬ sContains eT.render "Struct" then
    validate_simple_type colName eT.render dT.render dT eT
  else if sContains eT.render "Struct" ∧ ¬ sContains dT.render "Struct" then
    [mkStructTypeMsg colName dT]
  else if sContains eT.render "List" ∧ ¬ sContains dT.render "List" then
    [mkListTypeMsg colName dT]
  else if sContains eT.render "Struct" ∧ hasFieldsAttr eT ∧ hasFieldsAttr dT then
    validate_struct_fields colName eT dT
  else []

/-- validators.py validate_column: looks up the observed dtype, resolves
the declared type (which may raise, modelled as `.error`), runs the type
comparison chain and then, independently, the nullability check. -/
def validate_column (df : DataFrame) (col : SchemaField) :
    Except String (List String) :=
  match df.dtypeOf col.name with
  | none => .error (quoteS col.name)
  | some dT =>
    match toPolarsTypeExc col with
    | .error e => .error e.message
    | .ok eT =>
        .ok (columnTypeErrors dT eT col.name ++
          (if col.nullable = false ∧ 0 < df.nullCountOf col.name
           then [mkNullMsg col.name] else []))

/-- Concatenation of a list-valued map, used to model the error-appending
loop of validate_dataframe. -/
def concatMap (f : α → List β) : List α → List β
  | [] => []
  | a :: as => f a ++ concatMap f as

/-- The error contribution of one declared column inside the loop of
validate_dataframe: validate_column's errors, or the caught-exception
message when validation of the column raised. -/
def columnChunk (df : DataFrame) (col : SchemaField) : List String :=
  match validate_column df col with
  | .ok es => es
  | .error e => [mkCatchMsg col.name e]

/-- The per-column loop of validate_dataframe: every declared column that
is present in the DataFrame is validated, in declared order. -/
def columnPass (df : DataFrame) (ts : TableSchema) : List String :=
  concatMap
    (fun col => if col.name ∈ df.columns then columnChunk df col else [])
    ts.columns

def missingColumnNames (df : DataFrame) (ts : TableSchema) : List String :=
  setDiffNames ts.colNames df.columns

def extraColumnNames (df : DataFrame) (ts : TableSchema) : List String :=
  setDiffNames df.columns ts.colNames

/-- The full accumulated error list of validate_dataframe: the aggregated
missing-columns message, the aggregated extra-columns message, then the
per-column errors in declared order. -/
def validateErrors (df : DataFrame) (ts : TableSchema) : List String :=
  (if missingColumnNames df ts ≠ []
   then [mkMissingColsMsg (missingColumnNames df ts)] else []) ++
  (if extraColumnNames df ts ≠ []
   then [mkExtraColsMsg (extraColumnNames df ts)] else []) ++
  columnPass df ts

/-- validators.py validate_dataframe: accumulates all errors; with
raise_exception it converts a non-empty list into a raised
SchemaValidationError carrying the list, otherwise it returns the list. -/
def validate_dataframe (df : DataFrame) (ts : TableSchema)
    (raiseException : Bool) : Except SchemaValidationError (List String) :=
  if validateErrors df ts ≠ [] ∧ raiseException = true then
    .error ⟨mkRaiseMsg ts.name, validateErrors df ts⟩
  else
    .ok (validateErrors df ts)

/-- Claim-side predicate: the type is some width/signedness of integer. -/
def isIntFamily : PolarsType → Bool
  | .Int8 | .Int16 | .Int32 | .Int64 => true
  | .UInt8 | .UInt16 | .UInt32 | .UInt64 => true
  | _ => false

/-- Claim-side predicate: the type is some precision of floating point. -/
def isFloatFamily : PolarsType → Bool
  | .Float32 | .Float64 => true
  | _ => false

/-- Claim-side predicate: the type is some variant of date-time. -/
def isDatetimeFamily : PolarsType → Bool
  | .Datetime _ _ => true
  | _ => false

/-- Claim-side relation: the actual type matches the declared type within
family-matching tolerance (integer widths, float precisions, date-time
variants, otherwise exact equality). -/
def typesMatch (eT aT : PolarsType) : Prop :=
  (isIntFamily eT = true ∧ isIntFamily aT = true) ∨
  (isFloatFamily eT = true ∧ isFloatFamily aT = true) ∨
  (isDatetimeFamily eT = true ∧ isDatetimeFamily aT = true) ∨
  eT = aT

/-- The family keyword whose presence in the actual rendering the
primitive comparison accepts (the "UInt" clause of the source is absorbed
by the "Int" clause, since "UInt" contains "Int"). -/
def famKeyword : PolarsType → Option String
  | .Int8 | .Int16 | .Int32 | .Int64 => some "Int"
  | .UInt8 | .UInt16 | .UInt32 | .UInt64 => some "Int"
  | .Float32 | .Float64 => some "Float"
  | .Datetime _ _ => some "Datetime"
  | _ => none

/-- The first two characters of a message, used to classify which of the
validator's message families a string belongs to (each family begins with
a distinct fixed literal). -/
def msgKey (s : String) : List Char := s.data.take 2

/-- A string shaped like the aggregated missing-columns message. -/
def isMissingColsShaped (s : String) : Bool := msgKey s == ['M', 'i']

/-- A string shaped like the aggregated extra-columns message. -/
def isExtraColsShaped (s : String) : Bool := msgKey s == ['E', 'x']

/- ------------------------------------------------------------------ -/
/- Helper lemmas                                                       -/
/- ------------------------------------------------------------------ -/

lemma string_data_append (a b : String) : (a ++ b).data = a.data ++ b.data := rfl

lemma string_eq_of_data {a b : String} (h : a.data = b.data) : a = b := by
  cases a; cases b; cases h; rfl

lemma string_append_assoc (a b c : String) : a ++ b ++ c = a ++ (b ++ c) := by
  apply string_eq_of_data
  simp [string_data_append, List.append_assoc]

lemma sContains_append_left {pre sub : String} (rest : String)
    (h : sContains pre sub) : sContains (pre ++ rest) sub := by
  obtain ⟨s, t, hst⟩ := h
  exact ⟨s, t ++ rest.data, by rw [string_data_append, ← hst]; simp⟩

lemma sContains_trans {s a b : String} (hab : sContains a b)
    (hsa : sContains s a) : sContains s b :=
  List.IsInfix.trans hab hsa

lemma string_append_right_cancel {c a b : String} (h : c ++ a = c ++ b) : a = b := by
  apply string_eq_of_data
  have hd : c.data ++ a.data = c.data ++ b.data := by
    rw [← string_data_append, ← string_data_append, h]
  exact List.append_cancel_left hd

lemma ne_of_msgKey_ne {a b : String} (h : msgKey a ≠ msgKey b) : a ≠ b :=
  fun he => h (by rw [he])

/-- Two messages that share the fixed `Column <quoted name>` prefix but
whose suffixes begin differently are distinct. -/
lemma column_msg_ne (n : String) {a b : String}
    (h : msgKey a ≠ msgKey b) :
    "Column " ++ (quoteS n ++ a) ≠ "Column " ++ (quoteS n ++ b) := by
  intro he
  exact ne_of_msgKey_ne h (string_append_right_cancel (string_append_right_cancel he))

lemma mkTypeMismatchMsg_eq (n : String) (d e : PolarsType) :
    mkTypeMismatchMsg n d e
      = "Column " ++ (quoteS n ++ (" has type " ++ d.render ++ (", expected " ++ e.render))) := by
  simp [mkTypeMismatchMsg, string_append_assoc]

lemma mkStructTypeMsg_eq (n : String) (d : PolarsType) :
    mkStructTypeMsg n d
      = "Column " ++ (quoteS n ++ (" has type " ++ d.render ++ ", expected a struct type")) := by
  simp [mkStructTypeMsg, string_append_assoc]

lemma mkListTypeMsg_eq (n : String) (d : PolarsType) :
    mkListTypeMsg n d
      = "Column " ++ (quoteS n ++ (" has type " ++ d.render ++ ", expected a list type")) := by
  simp [mkListTypeMsg, string_append_assoc]

lemma mkStructMissingMsg_eq (n : String) (l : List String) :
    mkStructMissingMsg n l
      = "Column " ++ (quoteS n ++ (" is missing struct fields: " ++ String.intercalate ", " l)) := by
  simp [mkStructMissingMsg, string_append_assoc]

lemma mkNullMsg_eq (n : String) :
    mkNullMsg n = "Column " ++ (quoteS n ++ " contains null values but is not nullable") := by
  simp [mkNullMsg, string_append_assoc]

lemma mkTypeMismatchMsg_ne_null (n : String) (d e : PolarsType) :
    mkTypeMismatchMsg n d e ≠ mkNullMsg n := by
  rw [mkTypeMismatchMsg_eq, mkNullMsg_eq]
  refine column_msg_ne n ?_
  intro hk
  rw [show msgKey (" has type " ++ d.render ++ (", expected " ++ e.render))
        = [' ', 'h'] from rfl,
      show msgKey " contains null values but is not nullable" = [' ', 'c'] from rfl] at hk
  exact absurd hk (by decide)

lemma mkStructTypeMsg_ne_null (n : String) (d : PolarsType) :
    mkStructTypeMsg n d ≠ mkNullMsg n := by
  rw [mkStructTypeMsg_eq, mkNullMsg_eq]
  refine column_msg_ne n ?_
  intro hk
  rw [show msgKey (" has type " ++ d.render ++ ", expected a struct type")
        = [' ', 'h'] from rfl,
      show msgKey " contains null values but is not nullable" = [' ', 'c'] from rfl] at hk
  exact absurd hk (by decide)

lemma mkListTypeMsg_ne_null (n : String) (d : PolarsType) :
    mkListTypeMsg n d ≠ mkNullMsg n := by
  rw [mkListTypeMsg_eq, mkNullMsg_eq]
  refine column_msg_ne n ?_
  intro hk
  rw [show msgKey (" has type " ++ d.render ++ ", expected a list type")
        = [' ', 'h'] from rfl,
      show msgKey " contains null values but is not nullable" = [' ', 'c'] from rfl] at hk
  exact absurd hk (by decide)

lemma mkStructMissingMsg_ne_null (n : String) (l : List String) :
    mkStructMissingMsg n l ≠ mkNullMsg n := by
  rw [mkStructMissingMsg_eq, mkNullMsg_eq]
  refine column_msg_ne n ?_
  intro hk
  rw [show msgKey (" is missing struct fields: " ++ String.intercalate ", " l)
        = [' ', 'i'] from rfl,
      show msgKey " contains null values but is not nullable" = [' ', 'c'] from rfl] at hk
  exact absurd hk (by decide)

lemma validate_struct_fields_cases {e d : PolarsType} {n s : String}
    (h : s ∈ validate_struct_fields n e d) : ∃ l, s = mkStructMissingMsg n l := by
  unfold validate_struct_fields at h
  split at h
  · split_ifs at h
    · exact ⟨_, List.mem_singleton.mp h⟩
    · cases h
  · cases h

lemma validate_simple_type_cases {e d : PolarsType} {n eStr dStr s : String}
    (h : s ∈ validate_simple_type n eStr dStr d e) : s = mkTypeMismatchMsg n d e := by
  unfold validate_simple_type at h
  split_ifs at h
  · cases h
  · cases h
  · cases h
  · exact List.mem_singleton.mp h
  · cases h

/-- Every message the type-comparison chain can produce has one of four
shapes, each citing the validated column's name. -/
lemma columnTypeErrors_cases {d e : PolarsType} {n s : String}
    (h : s ∈ columnTypeErrors d e n) :
    s = mkTypeMismatchMsg n d e ∨ s = mkStructTypeMsg n d ∨
    s = mkListTypeMsg n d ∨ ∃ l, s = mkStructMissingMsg n l := by
  unfold columnTypeErrors at h
  split_ifs at h
  · exact Or.inl (validate_simple_type_cases h)
  · exact Or.inr (Or.inl (List.mem_singleton.mp h))
  · exact Or.inr (Or.inr (Or.inl (List.mem_singleton.mp h)))
  · exact Or.inr (Or.inr (Or.inr (validate_struct_fields_cases h)))
  · cases h

lemma msgKey_columnTypeErrors {d e : PolarsType} {n s : String}
    (h : s ∈ columnTypeErrors d e n) : msgKey s = ['C', 'o'] := by
  rcases columnTypeErrors_cases h with rfl | rfl | rfl | ⟨l, rfl⟩ <;> rfl

lemma mem_columnTypeErrors_ne_null {d e : PolarsType} {n s : String}
    (h : s ∈ columnTypeErrors d e n) : s ≠ mkNullMsg n := by
  rcases columnTypeErrors_cases h with rfl | rfl | rfl | ⟨l, rfl⟩
  · exact mkTypeMismatchMsg_ne_null n d e
  · exact mkStructTypeMsg_ne_null n d
  · exact mkListTypeMsg_ne_null n d
  · exact mkStructMissingMsg_ne_null n l

lemma mem_concatMap {f : α → List β} {l : List α} {b : β} :
    b ∈ concatMap f l ↔ ∃ a ∈ l, b ∈ f a := by
  induction l with
  | nil => simp [concatMap]
  | cons x xs ih =>
      simp [concatMap, List.mem_append, ih]

lemma concatMap_eq_nil {f : α → List β} {l : List α}
    (h : ∀ a ∈ l, f a = []) : concatMap f l = [] := by
  induction l with
  | nil => rfl
  | cons x xs ih =>
      simp only [concatMap, h x (List.mem_cons_self x xs)]
      exact ih (fun a ha => h a (List.mem_cons_of_mem x ha))

lemma infix_concatMap {f : α → List β} {l : List α} {a : α} (h : a ∈ l) :
    f a <:+: concatMap f l := by
  induction l with
  | nil => cases h
  | cons x xs ih =>
      rcases List.mem_cons.mp h with rfl | hmem
      · exact ⟨[], concatMap f xs, rfl⟩
      · obtain ⟨s, t, hst⟩ := ih hmem
        exact ⟨f x ++ s, t, by simp only [concatMap, ← hst, List.append_assoc]⟩

lemma mem_setDiffNames {xs ys : List String} {n : String} :
    n ∈ setDiffNames xs ys ↔ n ∈ xs ∧ n ∉ ys := by
  simp [setDiffNames, List.mem_filter, List.mem_dedup]

lemma setDiffNames_eq_nil {xs ys : List String}
    (h : ∀ n ∈ xs, n ∈ ys) : setDiffNames xs ys = [] := by
  apply List.filter_eq_nil_iff.mpr
  intro a ha
  simp only [decide_eq_true_eq, Decidable.not_not]
  exact h a (List.mem_dedup.mp ha)

lemma setDiffNames_ne_nil {xs ys : List String} {n : String}
    (hx : n ∈ xs) (hy : n ∉ ys) : setDiffNames xs ys ≠ [] := by
  intro h
  have hmem := mem_setDiffNames.mpr ⟨hx, hy⟩
  rw [h] at hmem
  exact absurd hmem (List.not_mem_nil n)

lemma sContains_int_of_uint {s : String} (h : sContains s "UInt") : sContains s "Int" :=
  sContains_trans (a := "UInt") (by decide) h

lemma isInt_render_contains {t : PolarsType} (h : isIntFamily t = true) :
    sContains t.render "Int" := by
  cases t <;> simp_all [isIntFamily]
  all_goals decide

lemma isFloat_render_contains {t : PolarsType} (h : isFloatFamily t = true) :
    sContains t.render "Float" := by
  cases t <;> simp_all [isFloatFamily]
  all_goals decide

lemma datetime_render_contains (tu : TimeUnit) (tz : Option String) :
    sContains (PolarsType.Datetime tu tz).render "Datetime" := by
  show sContains
    ("Datetime(time_unit=\x27" ++ tu.render ++ "\x27, time_zone=" ++ renderTz tz ++ ")")
    "Datetime"
  apply sContains_append_left
  apply sContains_append_left
  apply sContains_append_left
  apply sContains_append_left
  decide

lemma isDatetime_render_contains {t : PolarsType} (h : isDatetimeFamily t = true) :
    sContains t.render "Datetime" := by
  cases t <;> simp_all [isDatetimeFamily]
  exact datetime_render_contains _ _

lemma hasFieldsAttr_struct {t : PolarsType} (h : hasFieldsAttr t = true) :
    ∃ fs, t = .Struct fs := by
  cases t <;> simp_all [hasFieldsAttr]

lemma struct_render_contains (fs : List (String × PolarsType)) :
    sContains (PolarsType.Struct fs).render "Struct" := by
  show sContains ("Struct(\x7b" ++ renderFieldList fs ++ "\x7d)") "Struct"
  apply sContains_append_left
  apply sContains_append_left
  decide

lemma listT_render_contains (t : PolarsType) :
    sContains (PolarsType.ListT t).render "List" := by
  show sContains ("List(" ++ t.render ++ ")") "List"
  apply sContains_append_left
  apply sContains_append_left
  decide

lemma vst_self (n : String) (eStr : String) (dT eT : PolarsType) :
    validate_simple_type n eStr eStr dT eT = [] := by
  unfold validate_simple_type
  split_ifs with h1 h2 h3 h4
  any_goals rfl
  exact absurd rfl h4

/-- Behaviour of validate_simple_type when the expected rendering carries
the integer keyword: the actual passes whenever its rendering carries
"Int", otherwise exact rendering comparison decides. -/
lemma vst_int_char (n eStr dStr : String) (dT eT : PolarsType)
    (hInt : sContains eStr "Int") (hNoF : ¬ sContains eStr "Float")
    (hNoD : ¬ sContains eStr "Datetime") :
    validate_simple_type n eStr dStr dT eT
      = if sContains dStr "Int" then []
        else if eStr = dStr then [] else [mkTypeMismatchMsg n dT eT] := by
  unfold validate_simple_type
  by_cases hd : sContains dStr "Int"
  · rw [if_pos (Or.inl ⟨hInt, hd⟩), if_pos hd]
  · have hc : ¬ ((sContains eStr "Int" ∧ sContains dStr "Int") ∨
        (sContains eStr "UInt" ∧ sContains dStr "UInt")) := by
      rintro (⟨_, h⟩ | ⟨_, hu⟩)
      · exact hd h
      · exact hd (sContains_int_of_uint hu)
    rw [if_neg hc, if_neg (fun h => hNoF h.1), if_neg (fun h => hNoD h.1), if_neg hd]
    by_cases he : eStr = dStr
    · rw [if_neg (fun hne => hne he), if_pos he]
    · rw [if_pos he, if_neg he]

/-- Behaviour of validate_simple_type for a float-keyword expected type. -/
lemma vst_float_char (n eStr dStr : String) (dT eT : PolarsType)
    (hF : sContains eStr "Float") (hNoInt : ¬ sContains eStr "Int")
    (hNoD : ¬ sContains eStr "Datetime") :
    validate_simple_type n eStr dStr dT eT
      = if sContains dStr "Float" then []
        else if eStr = dStr then [] else [mkTypeMismatchMsg n dT eT] := by
  unfold validate_simple_type
  have hc : ¬ ((sContains eStr "Int" ∧ sContains dStr "Int") ∨
      (sContains eStr "UInt" ∧ sContains dStr "UInt")) := by
    rintro (⟨h, _⟩ | ⟨hu, _⟩)
    · exact hNoInt h
    · exact hNoInt (sContains_int_of_uint hu)
  rw [if_neg hc]
  by_cases hd : sContains dStr "Float"
  · rw [if_pos ⟨hF, hd⟩, if_pos hd]
  · rw [if_neg (fun h => hd h.2), if_neg (fun h => hNoD h.1), if_neg hd]
    by_cases he : eStr = dStr
    · rw [if_neg (fun hne => hne he), if_pos he]
    · rw [if_pos he, if_neg he]

/-- Behaviour of validate_simple_type for a datetime-keyword expected type. -/
lemma vst_datetime_char (n eStr dStr : String) (dT eT : PolarsType)
    (hD : sContains eStr "Datetime") (hNoInt : ¬ sContains eStr "Int")
    (hNoF : ¬ sContains eStr "Float") :
    validate_simple_type n eStr dStr dT eT
      = if sContains dStr "Datetime" then []
        else if eStr = dStr then [] else [mkTypeMismatchMsg n dT eT] := by
  unfold validate_simple_type
  have hc : ¬ ((sContains eStr "Int" ∧ sContains dStr "Int") ∨
      (sContains eStr "UInt" ∧ sContains dStr "UInt")) := by
    rintro (⟨h, _⟩ | ⟨hu, _⟩)
    · exact hNoInt h
    · exact hNoInt (sContains_int_of_uint hu)
  rw [if_neg hc, if_neg (fun h => hNoF h.1)]
  by_cases hd : sContains dStr "Datetime"
  · rw [if_pos ⟨hD, hd⟩, if_pos hd]
  · rw [if_neg (fun h => hd h.2), if_neg hd]
    by_cases he : eStr = dStr
    · rw [if_neg (fun hne => hne he), if_pos he]
    · rw [if_pos he, if_neg he]

/-- Behaviour of validate_simple_type when the expected rendering carries
no family keyword: exact rendering comparison decides. -/
lemma vst_plain_char (n eStr dStr : String) (dT eT : PolarsType)
    (hNoInt : ¬ sContains eStr "Int") (hNoF : ¬ sContains eStr "Float")
    (hNoD : ¬ sContains eStr "Datetime") :
    validate_simple_type n eStr dStr dT eT
      = if eStr = dStr then [] else [mkTypeMismatchMsg n dT eT] := by
  unfold validate_simple_type
  have hc : ¬ ((sContains eStr "Int" ∧ sContains dStr "Int") ∨
      (sContains eStr "UInt" ∧ sContains dStr "UInt")) := by
    rintro (⟨h, _⟩ | ⟨hu, _⟩)
    · exact hNoInt h
    · exact hNoInt (sContains_int_of_uint hu)
  rw [if_neg hc, if_neg (fun h => hNoF h.1), if_neg (fun h => hNoD h.1)]
  by_cases he : eStr = dStr
  · rw [if_neg (fun hne => hne he), if_pos he]
  · rw [if_pos he, if_neg he]

lemma columnTypeErrors_self (t : PolarsType) (n : String) :
    columnTypeErrors t t n = [] := by
  unfold columnTypeErrors
  split_ifs with h1 h2 h3 h4
  · exact vst_self n t.render t t
  · exact (h2.2 h2.1).elim
  · exact (h3.2 h3.1).elim
  · obtain ⟨fs, rfl⟩ := hasFieldsAttr_struct h4.2.1
    unfold validate_struct_fields
    have h0 : setDiffNames (List.map Prod.fst fs) (List.map Prod.fst fs) = [] :=
      setDiffNames_eq_nil (fun x hx => hx)
    simp [h0]
  · rfl

/-- The primitive table resolves a datetime only as microseconds with no
time zone. -/
lemma lookupType_datetime {k : String} {tu : TimeUnit} {tz : Option String}
    (h : lookupType k = some (.Datetime tu tz)) : tu = .us ∧ tz = none := by
  unfold lookupType at h
  rcases Option.map_eq_some'.mp h with ⟨p, hp, hval⟩
  have hmem := List.mem_of_find?_eq_some hp
  simp only [POLARS_DATA_TYPES, List.mem_cons, List.not_mem_nil, or_false] at hmem
  rcases hmem with rfl | rfl | rfl | rfl | rfl | rfl | rfl | rfl | rfl | rfl | rfl | rfl
    | rfl | rfl | rfl | rfl | rfl | rfl <;>
    ((cases hval) <;> exact ⟨rfl, rfl⟩)

/-- Any datetime produced by the schema-to-Polars resolution comes from
the primitive table, hence is microseconds with no time zone. -/
lemma toPolarsTypeBody_ok_datetime {f : SchemaField} {tu : TimeUnit} {tz : Option String}
    (h : toPolarsTypeBody f = .ok (.Datetime tu tz)) : tu = .us ∧ tz = none := by
  rcases f with ⟨nm, ty, nb, fs, et⟩
  unfold toPolarsTypeBody at h
  dsimp only at h
  by_cases c1 : (pyLower ty == "struct" && !fs.isEmpty) = true
  · rw [if_pos c1] at h
    rcases hsd : structFieldsDict fs with d | d <;> rw [hsd] at h <;>
      simp only [Except.map] at h <;> cases h
  · rw [if_neg c1] at h
    by_cases c2 : (pyLower ty == "list" && truthyOpt et) = true
    · rw [if_pos c2] at h
      by_cases c3 : (pyLower (et.getD "") == "struct" && !fs.isEmpty) = true
      · rw [if_pos c3] at h
        rcases hsd : structFieldsDict fs with d | d <;> rw [hsd] at h <;>
          simp only [Except.map] at h <;> cases h
      · rw [if_neg c3] at h
        rcases hl : lookupType (pyLower (et.getD "")) with _ | t <;> rw [hl] at h
        · cases h
        · simp only [Except.ok.injEq] at h
          cases h
    · rw [if_neg c2] at h
      rcases hl : lookupType (pyLower ty) with _ | t <;> rw [hl] at h
      · cases h
      · injection h with h2
        rw [h2] at hl
        exact lookupType_datetime hl

/-- The exception-handling wrapper is the handler match applied to the
try-body's outcome. -/
lemma toPolarsTypeExc_eq (f : SchemaField) :
    toPolarsTypeExc f
      = match toPolarsTypeBody f with
        | .ok t => .ok t
        | .error (.keyError k) =>
            .error (.valueError ("Unknown data type: \x27" ++ k ++ "\x27"))
        | .error (.valueError m) =>
            .error (.valueError ("Error converting schema type to Polars type: " ++ m)) := by
  rcases f with ⟨nm, ty, nb, fs, et⟩
  rfl

lemma toPolarsTypeExc_ok_datetime {f : SchemaField} {tu : TimeUnit} {tz : Option String}
    (h : toPolarsTypeExc f = .ok (.Datetime tu tz)) : tu = .us ∧ tz = none := by
  rw [toPolarsTypeExc_eq] at h
  rcases hb : toPolarsTypeBody f with e | t
  · rw [hb] at h
    rcases e with k | m <;> cases h
  · rw [hb] at h
    injection h with h2
    rw [h2] at hb
    exact toPolarsTypeBody_ok_datetime hb

/-- If the actual type matches the resolved expected type within the
family-matching tolerance, the type-comparison chain emits no error. -/
lemma typesMatch_columnTypeErrors {f : SchemaField} {eT aT : PolarsType} {n : String}
    (hOk : toPolarsTypeExc f = .ok eT) (hm : typesMatch eT aT) :
    columnTypeErrors aT eT n = [] := by
  rcases hm with ⟨hi, ha⟩ | ⟨hf, ha⟩ | ⟨hd, ha⟩ | rfl
  · have haInt : sContains aT.render "Int" := isInt_render_contains ha
    cases eT <;> simp_all [isIntFamily] <;>
      (unfold columnTypeErrors
       rw [if_pos ⟨by decide, by decide⟩,
          vst_int_char _ _ _ _ _ (by decide) (by decide) (by decide), if_pos haInt])
  · have haF : sContains aT.render "Float" := isFloat_render_contains ha
    cases eT <;> simp_all [isFloatFamily] <;>
      (unfold columnTypeErrors
       rw [if_pos ⟨by decide, by decide⟩,
          vst_float_char _ _ _ _ _ (by decide) (by decide) (by decide), if_pos haF])
  · have haD : sContains aT.render "Datetime" := isDatetime_render_contains ha
    cases eT <;> simp_all [isDatetimeFamily]
    obtain ⟨rfl, rfl⟩ := toPolarsTypeExc_ok_datetime hOk
    unfold columnTypeErrors
    rw [if_pos ⟨by decide, by decide⟩,
       vst_datetime_char _ _ _ _ _ (by decide) (by decide) (by decide), if_pos haD]
  · exact columnTypeErrors_self _ n

lemma dtypeOf_isSome_of_mem {df : DataFrame} {n : String} (h : n ∈ df.columns) :
    ∃ t, df.dtypeOf n = some t := by
  unfold DataFrame.columns at h
  rcases List.mem_map.mp h with ⟨c, hc, rfl⟩
  have hsome : (df.cols.find? (fun c2 => c2.name == c.name)).isSome :=
    List.find?_isSome.mpr ⟨c, hc, by simp⟩
  rcases Option.isSome_iff_exists.mp hsome with ⟨p, hp⟩
  exact ⟨p.dtype, by unfold DataFrame.dtypeOf; rw [hp]; rfl⟩

lemma msgKey_validate_column_ok {df : DataFrame} {col : SchemaField}
    {es : List String} {s : String}
    (heq : validate_column df col = .ok es) (h : s ∈ es) : msgKey s = ['C', 'o'] := by
  unfold validate_column at heq
  split at heq
  · cases heq
  · split at heq
    · cases heq
    · injection heq with hes
      rw [← hes] at h
      rcases List.mem_append.mp h with h1 | h2
      · exact msgKey_columnTypeErrors h1
      · split_ifs at h2
        · rw [List.mem_singleton.mp h2]; rfl
        · cases h2

lemma msgKey_columnChunk {df : DataFrame} {col : SchemaField} {s : String}
    (h : s ∈ columnChunk df col) : msgKey s = ['C', 'o'] ∨ msgKey s = ['E', 'r'] := by
  unfold columnChunk at h
  split at h
  · exact Or.inl (msgKey_validate_column_ok (by assumption) h)
  · rw [List.mem_singleton.mp h]
    exact Or.inr rfl

lemma msgKey_columnPass {df : DataFrame} {ts : TableSchema} {s : String}
    (h : s ∈ columnPass df ts) : msgKey s = ['C', 'o'] ∨ msgKey s = ['E', 'r'] := by
  rcases mem_concatMap.mp h with ⟨col, hcol, hs⟩
  by_cases hp : col.name ∈ df.columns
  · rw [if_pos hp] at hs
    exact msgKey_columnChunk hs
  · rw [if_neg hp] at hs
    cases hs

lemma filter_columnPass_missing (df : DataFrame) (ts : TableSchema) :
    (columnPass df ts).filter isMissingColsShaped = [] := by
  apply List.filter_eq_nil_iff.mpr
  intro s hs
  rcases msgKey_columnPass hs with h | h <;> simp [isMissingColsShaped, h]

lemma filter_columnPass_extra (df : DataFrame) (ts : TableSchema) :
    (columnPass df ts).filter isExtraColsShaped = [] := by
  apply List.filter_eq_nil_iff.mpr
  intro s hs
  rcases msgKey_columnPass hs with h | h <;> simp [isExtraColsShaped, h]

lemma infix_append_left {l m : List α} (X : List α) (h : l <:+: m) : l <:+: X ++ m := by
  obtain ⟨s, t, hst⟩ := h
  exact ⟨X ++ s, t, by simp only [← hst, List.append_assoc]⟩

/- ------------------------------------------------------------------ -/
/- Claim theorems                                                      -/
/- ------------------------------------------------------------------ -/

/-- Claim C7: validate_dataframe called with raise_exception=True raises a
SchemaValidationError carrying the full accumulated error list if and only
if that list is non-empty; when the list is empty, or when raise_exception
is False, no exception is raised and the list is returned. -/
theorem strict_mode_raises (df : DataFrame) (ts : TableSchema) :
    validate_dataframe df ts false = .ok (validateErrors df ts) ∧
    (validateErrors df ts = [] → validate_dataframe df ts true = .ok []) ∧
    (validateErrors df ts ≠ [] →
      validate_dataframe df ts true
        = .error ⟨mkRaiseMsg ts.name, validateErrors df ts⟩) := by
  refine ⟨?_, ?_, ?_⟩
  · unfold validate_dataframe
    rw [if_neg (fun hc => Bool.false_ne_true hc.2)]
  · intro h
    unfold validate_dataframe
    rw [if_neg (fun hc => hc.1 h), h]
  · intro h
    unfold validate_dataframe
    rw [if_pos ⟨h, rfl⟩]

/-- Witness for C7: a failing validation raises the structured error with
the message list, while a passing one returns the empty list unraised. -/
theorem strict_mode_raises_witness :
    validate_dataframe (DataFrame.mk [])
        (TableSchema.mk "t" [SchemaField.mk "id" "int64" false [] none]) true
      = .error ⟨mkRaiseMsg "t", [mkMissingColsMsg ["id"]]⟩ ∧
    validate_dataframe (DataFrame.mk [DFColumn.mk "id" .Int64 0])
        (TableSchema.mk "t" [SchemaField.mk "id" "int64" false [] none]) true
      = .ok [] := by
  constructor
  · have h := (strict_mode_raises (DataFrame.mk [])
      (TableSchema.mk "t" [SchemaField.mk "id" "int64" false [] none])).2.2 (by decide)
    rw [show validateErrors (DataFrame.mk [])
        (TableSchema.mk "t" [SchemaField.mk "id" "int64" false [] none])
      = [mkMissingColsMsg ["id"]] from rfl] at h
    exact h
  · exact (strict_mode_raises (DataFrame.mk [DFColumn.mk "id" .Int64 0])
      (TableSchema.mk "t" [SchemaField.mk "id" "int64" false [] none])).2.1 (by decide)

/-- Claim C10: with raise_exception=False, validate_dataframe never
propagates an exception: it always returns the accumulated list, and any
failure while validating an individual column (such as a declared type
that fails to resolve) is caught and appended as an error message. -/
theorem no_exception_propagation (df : DataFrame) (ts : TableSchema) :
    validate_dataframe df ts false = .ok (validateErrors df ts) ∧
    ∀ col, col ∈ ts.columns → col.name ∈ df.columns → ∀ e,
      validate_column df col = .error e →
      mkCatchMsg col.name e ∈ validateErrors df ts := by
  constructor
  · unfold validate_dataframe
    rw [if_neg (fun hc => Bool.false_ne_true hc.2)]
  · intro col hcol hpres e herr
    have hchunk : columnChunk df col = [mkCatchMsg col.name e] := by
      unfold columnChunk
      rw [herr]
    have hmem : mkCatchMsg col.name e ∈ columnPass df ts := by
      apply mem_concatMap.mpr
      exact ⟨col, hcol, by
        rw [if_pos hpres, hchunk]
        exact List.mem_singleton.mpr rfl⟩
    unfold validateErrors
    exact List.mem_append.mpr (Or.inr hmem)

/-- Witness for C10: a malformed struct column's resolution failure is
caught and turned into an error message in the returned list. -/
theorem no_exception_propagation_witness :
    mkCatchMsg "c" "Unknown data type: \x27struct\x27"
      ∈ validateErrors (DataFrame.mk [DFColumn.mk "c" .Utf8 0])
          (TableSchema.mk "t" [SchemaField.mk "c" "struct" false [] none]) :=
  (no_exception_propagation (DataFrame.mk [DFColumn.mk "c" .Utf8 0])
      (TableSchema.mk "t" [SchemaField.mk "c" "struct" false [] none])).2
    (SchemaField.mk "c" "struct" false [] none)
    (List.mem_singleton.mpr rfl)
    (by decide)
    "Unknown data type: \x27struct\x27"
    rfl

/-- Claim C8: a SchemaField whose type is struct with missing or empty
fields, and one whose type is list with a missing element_type, make
to_polars_type fail with a descriptive definition error rather than
silently returning a degenerate runtime type. -/
theorem malformed_definition_fails (f : SchemaField) :
    (f.type = "struct" → f.fields = [] →
      toPolarsTypeExc f = .error (.valueError "Unknown data type: \x27struct\x27")) ∧
    (f.type = "list" → f.element_type = none →
      toPolarsTypeExc f = .error (.valueError "Unknown data type: \x27list\x27")) := by
  rcases f with ⟨nm, ty, nb, fs, et⟩
  constructor
  · intro hty hfs
    simp only [SchemaField.type] at hty
    simp only [SchemaField.fields] at hfs
    subst hty
    subst hfs
    rfl
  · intro hty het
    simp only [SchemaField.type] at hty
    simp only [SchemaField.element_type] at het
    subst hty
    subst het
    rfl

/-- Witness for C8: the two malformed shapes at concrete fields. -/
theorem malformed_definition_fails_witness :
    toPolarsTypeExc (SchemaField.mk "c" "struct" false [] none)
      = .error (.valueError "Unknown data type: \x27struct\x27") ∧
    toPolarsTypeExc (SchemaField.mk "c" "list" false [] none)
      = .error (.valueError "Unknown data type: \x27list\x27") :=
  ⟨(malformed_definition_fails (SchemaField.mk "c" "struct" false [] none)).1 rfl rfl,
   (malformed_definition_fails (SchemaField.mk "c" "list" false [] none)).2 rfl rfl⟩

/-- Claim C1: for every table schema and dataframe whose column-name sets
are exactly equal, where every declared column's actual runtime type
matches its declared type within family-matching tolerance, and every
non-nullable declared column has a null count of zero, validate_dataframe
returns an empty error list. -/
theorem validate_conforming_dataframe_clean (df : DataFrame) (ts : TableSchema)
    (hnames : ∀ n, n ∈ ts.colNames ↔ n ∈ df.columns)
    (htypes : ∀ col ∈ ts.columns, ∃ eT aT, toPolarsTypeExc col = .ok eT ∧
      df.dtypeOf col.name = some aT ∧ typesMatch eT aT)
    (hnulls : ∀ col ∈ ts.columns, col.nullable = false →
      df.nullCountOf col.name = 0) :
    validate_dataframe df ts false = .ok [] := by
  have hmiss : missingColumnNames df ts = [] :=
    setDiffNames_eq_nil (fun x hx => (hnames x).mp hx)
  have hext : extraColumnNames df ts = [] :=
    setDiffNames_eq_nil (fun x hx => (hnames x).mpr hx)
  have hpass : columnPass df ts = [] := by
    apply concatMap_eq_nil
    intro col hcol
    by_cases hp : col.name ∈ df.columns
    · rw [if_pos hp]
      obtain ⟨eT, aT, hok, hdT, hm⟩ := htypes col hcol
      have hval : validate_column df col = .ok [] := by
        unfold validate_column
        rw [hdT, hok]
        dsimp only
        rw [typesMatch_columnTypeErrors hok hm]
        dsimp only [List.nil_append]
        rcases hnb : col.nullable with _ | _
        · have h0 := hnulls col hcol hnb
          rw [h0, if_neg (fun hc => Nat.lt_irrefl 0 hc.2)]
        · rw [if_neg (fun hc => Bool.noConfusion hc.1)]
      unfold columnChunk
      rw [hval]
    · rw [if_neg hp]
  have hve : validateErrors df ts = [] := by
    unfold validateErrors
    rw [hmiss, hext, hpass]
    simp
  unfold validate_dataframe
  rw [hve]
  rw [if_neg (fun hc => hc.1 rfl)]

/-- Witness for C1: a single-column schema matched by a dataframe whose
integer width differs but stays in the integer family. -/
theorem validate_conforming_dataframe_clean_witness :
    validate_dataframe (DataFrame.mk [DFColumn.mk "id" .Int32 0])
      (TableSchema.mk "t" [SchemaField.mk "id" "int64" false [] none]) false = .ok [] := by
  apply validate_conforming_dataframe_clean
  · intro n
    exact Iff.rfl
  · intro col hcol
    rw [List.mem_singleton.mp hcol]
    exact ⟨.Int64, .Int32, rfl, rfl, Or.inl ⟨rfl, rfl⟩⟩
  · intro col hcol hnb
    rw [List.mem_singleton.mp hcol]
    rfl

/-- Claim C2: for every dataframe lacking one or more of the schema's
declared columns, the returned list contains exactly one missing-columns
message, and that message names all and only the declared column names
absent from the dataframe (the message is the comma-separated rendering of
missingColumnNames, whose membership is characterized below). -/
theorem validate_missing_columns_aggregated (df : DataFrame) (ts : TableSchema)
    (h : ∃ col ∈ ts.columns, col.name ∉ df.columns) :
    validate_dataframe df ts false = .ok (validateErrors df ts) ∧
    (validateErrors df ts).filter isMissingColsShaped
        = [mkMissingColsMsg (missingColumnNames df ts)] ∧
    (∀ n, n ∈ missingColumnNames df ts ↔ n ∈ ts.colNames ∧ n ∉ df.columns) := by
  have hne : missingColumnNames df ts ≠ [] := by
    obtain ⟨col, hcol, habs⟩ := h
    exact setDiffNames_ne_nil (List.mem_map.mpr ⟨col, hcol, rfl⟩) habs
  refine ⟨?_, ?_, ?_⟩
  · unfold validate_dataframe
    rw [if_neg (fun hc => Bool.false_ne_true hc.2)]
  · unfold validateErrors
    rw [List.filter_append, List.filter_append, if_pos hne]
    have hm : ([mkMissingColsMsg (missingColumnNames df ts)].filter isMissingColsShaped)
        = [mkMissingColsMsg (missingColumnNames df ts)] := by
      rw [List.filter_cons, if_pos (show isMissingColsShaped
        (mkMissingColsMsg (missingColumnNames df ts)) = true from rfl)]
      rfl
    have hx : ((if extraColumnNames df ts ≠ []
        then [mkExtraColsMsg (extraColumnNames df ts)] else []).filter
          isMissingColsShaped) = [] := by
      split_ifs
      · rw [List.filter_cons,
          if_neg (show ¬ isMissingColsShaped
            (mkExtraColsMsg (extraColumnNames df ts)) = true
            from fun hc => Bool.noConfusion hc)]
        rfl
      · rfl
    rw [hm, hx, filter_columnPass_missing]
    simp
  · intro n
    exact mem_setDiffNames

/-- Witness for C2: a schema with columns a, b against a dataframe holding
only a. -/
theorem validate_missing_columns_aggregated_witness :
    validate_dataframe (DataFrame.mk [DFColumn.mk "a" .Int64 0])
        (TableSchema.mk "t" [SchemaField.mk "a" "int64" false [] none,
          SchemaField.mk "b" "utf8" false [] none]) false
      = .ok (validateErrors (DataFrame.mk [DFColumn.mk "a" .Int64 0])
          (TableSchema.mk "t" [SchemaField.mk "a" "int64" false [] none,
            SchemaField.mk "b" "utf8" false [] none])) ∧
    (validateErrors (DataFrame.mk [DFColumn.mk "a" .Int64 0])
        (TableSchema.mk "t" [SchemaField.mk "a" "int64" false [] none,
          SchemaField.mk "b" "utf8" false [] none])).filter isMissingColsShaped
      = [mkMissingColsMsg (missingColumnNames (DataFrame.mk [DFColumn.mk "a" .Int64 0])
          (TableSchema.mk "t" [SchemaField.mk "a" "int64" false [] none,
            SchemaField.mk "b" "utf8" false [] none]))] ∧
    (∀ n, n ∈ missingColumnNames (DataFrame.mk [DFColumn.mk "a" .Int64 0])
        (TableSchema.mk "t" [SchemaField.mk "a" "int64" false [] none,
          SchemaField.mk "b" "utf8" false [] none])
      ↔ n ∈ (TableSchema.mk "t" [SchemaField.mk "a" "int64" false [] none,
          SchemaField.mk "b" "utf8" false [] none]).colNames
        ∧ n ∉ (DataFrame.mk [DFColumn.mk "a" .Int64 0]).columns) :=
  validate_missing_columns_aggregated
    (DataFrame.mk [DFColumn.mk "a" .Int64 0])
    (TableSchema.mk "t" [SchemaField.mk "a" "int64" false [] none,
      SchemaField.mk "b" "utf8" false [] none])
    ⟨SchemaField.mk "b" "utf8" false [] none,
      List.mem_cons_of_mem _ (List.mem_singleton.mpr rfl), by decide⟩

/-- Claim C3: for every dataframe containing columns not declared in the
schema, the returned list contains exactly one aggregated extra-columns
message naming all and only the extra column names, and the per-column
checks on the declared columns that are present still contribute their
full output to the returned list. -/
theorem validate_extra_columns_aggregated (df : DataFrame) (ts : TableSchema)
    (h : ∃ n ∈ df.columns, n ∉ ts.colNames) :
    validate_dataframe df ts false = .ok (validateErrors df ts) ∧
    (validateErrors df ts).filter isExtraColsShaped
        = [mkExtraColsMsg (extraColumnNames df ts)] ∧
    (∀ n, n ∈ extraColumnNames df ts ↔ n ∈ df.columns ∧ n ∉ ts.colNames) ∧
    (∀ col ∈ ts.columns, col.name ∈ df.columns →
      columnChunk df col <:+: validateErrors df ts) := by
  have hne : extraColumnNames df ts ≠ [] := by
    obtain ⟨n, hn, habs⟩ := h
    exact setDiffNames_ne_nil hn habs
  refine ⟨?_, ?_, fun n => mem_setDiffNames, ?_⟩
  · unfold validate_dataframe
    rw [if_neg (fun hc => Bool.false_ne_true hc.2)]
  · unfold validateErrors
    rw [List.filter_append, List.filter_append, if_pos hne]
    have hm : ((if missingColumnNames df ts ≠ []
        then [mkMissingColsMsg (missingColumnNames df ts)] else []).filter
          isExtraColsShaped) = [] := by
      split_ifs
      · rw [List.filter_cons,
          if_neg (show ¬ isExtraColsShaped
            (mkMissingColsMsg (missingColumnNames df ts)) = true
            from fun hc => Bool.noConfusion hc)]
        rfl
      · rfl
    have hx : ([mkExtraColsMsg (extraColumnNames df ts)].filter isExtraColsShaped)
        = [mkExtraColsMsg (extraColumnNames df ts)] := by
      rw [List.filter_cons, if_pos (show isExtraColsShaped
        (mkExtraColsMsg (extraColumnNames df ts)) = true from rfl)]
      rfl
    rw [hm, hx, filter_columnPass_extra]
    simp
  · intro col hcol hpres
    have h1 := infix_concatMap
      (f := fun col => if col.name ∈ df.columns then columnChunk df col else []) hcol
    dsimp only at h1
    rw [if_pos hpres] at h1
    unfold validateErrors columnPass
    obtain ⟨s, t, hst⟩ := h1
    exact ⟨(if missingColumnNames df ts ≠ []
        then [mkMissingColsMsg (missingColumnNames df ts)] else []) ++
      (if extraColumnNames df ts ≠ []
        then [mkExtraColsMsg (extraColumnNames df ts)] else []) ++ s, t, by
      simp only [← hst, List.append_assoc]⟩

/-- Witness for C3: a dataframe with one declared, mistyped column and one
extra column; the extra-columns message appears and the declared column's
chunk is still embedded in the output. -/
theorem validate_extra_columns_aggregated_witness :
    (validateErrors
        (DataFrame.mk [DFColumn.mk "a" .Utf8 0, DFColumn.mk "x" .Int64 0])
        (TableSchema.mk "t" [SchemaField.mk "a" "boolean" false [] none])).filter
          isExtraColsShaped
      = [mkExtraColsMsg (extraColumnNames
          (DataFrame.mk [DFColumn.mk "a" .Utf8 0, DFColumn.mk "x" .Int64 0])
          (TableSchema.mk "t" [SchemaField.mk "a" "boolean" false [] none]))] ∧
    columnChunk (DataFrame.mk [DFColumn.mk "a" .Utf8 0, DFColumn.mk "x" .Int64 0])
        (SchemaField.mk "a" "boolean" false [] none)
      <:+: validateErrors
        (DataFrame.mk [DFColumn.mk "a" .Utf8 0, DFColumn.mk "x" .Int64 0])
        (TableSchema.mk "t" [SchemaField.mk "a" "boolean" false [] none]) := by
  have h := validate_extra_columns_aggregated
    (DataFrame.mk [DFColumn.mk "a" .Utf8 0, DFColumn.mk "x" .Int64 0])
    (TableSchema.mk "t" [SchemaField.mk "a" "boolean" false [] none])
    ⟨"x", by decide, by decide⟩
  exact ⟨h.2.1, h.2.2.2 (SchemaField.mk "a" "boolean" false [] none)
    (List.mem_singleton.mpr rfl) (by decide)⟩

/-- Counterexample to C4 as stated: a declared non-nullable column that is
present and contains a null, but whose declared type fails to resolve
(struct with no fields), yields no nullability error at all; the column's
validation aborts with a single caught-exception message instead. -/
theorem nullability_check_counterexample :
    (SchemaField.mk "c" "struct" false [] none).nullable = false ∧
    "c" ∈ (DataFrame.mk [DFColumn.mk "c" .Utf8 1]).columns ∧
    0 < (DataFrame.mk [DFColumn.mk "c" .Utf8 1]).nullCountOf "c" ∧
    validateErrors (DataFrame.mk [DFColumn.mk "c" .Utf8 1])
        (TableSchema.mk "t" [SchemaField.mk "c" "struct" false [] none])
      = [mkCatchMsg "c" "Unknown data type: \x27struct\x27"] ∧
    (validateErrors (DataFrame.mk [DFColumn.mk "c" .Utf8 1])
        (TableSchema.mk "t" [SchemaField.mk "c" "struct" false [] none])).count
          (mkNullMsg "c") = 0 :=
  ⟨rfl, by decide, by decide, rfl, by decide⟩

/-- Claim C4 (amended): for every declared column that is present,
declared not nullable, whose actual column contains at least one null, and
whose declared type resolves successfully, the column's validation emits
exactly one nullability error citing that column name, regardless of how
many nulls are present and independently of the type-comparison outcome,
and that column's full output is embedded in validate_dataframe's list. -/
theorem nullability_error_exactly_once (df : DataFrame) (ts : TableSchema)
    (col : SchemaField)
    (hcol : col ∈ ts.columns) (hpres : col.name ∈ df.columns)
    (hnn : col.nullable = false) (hnz : 0 < df.nullCountOf col.name)
    (hres : ∃ eT, toPolarsTypeExc col = .ok eT) :
    ∃ errs, validate_column df col = .ok errs ∧
      errs.count (mkNullMsg col.name) = 1 ∧ errs <:+: validateErrors df ts := by
  obtain ⟨eT, hok⟩ := hres
  obtain ⟨dT, hdT⟩ := dtypeOf_isSome_of_mem hpres
  have hval : validate_column df col
      = .ok (columnTypeErrors dT eT col.name ++ [mkNullMsg col.name]) := by
    unfold validate_column
    rw [hdT, hok]
    dsimp only
    rw [if_pos ⟨hnn, hnz⟩]
  refine ⟨columnTypeErrors dT eT col.name ++ [mkNullMsg col.name], hval, ?_, ?_⟩
  · rw [List.count_append]
    have h0 : (columnTypeErrors dT eT col.name).count (mkNullMsg col.name) = 0 :=
      List.count_eq_zero.mpr (fun hmem => mem_columnTypeErrors_ne_null hmem rfl)
    rw [h0]
    simp
  · have hchunk : columnChunk df col
        = columnTypeErrors dT eT col.name ++ [mkNullMsg col.name] := by
      unfold columnChunk
      rw [hval]
    rw [← hchunk]
    have h1 := infix_concatMap
      (f := fun col => if col.name ∈ df.columns then columnChunk df col else []) hcol
    dsimp only at h1
    rw [if_pos hpres] at h1
    unfold validateErrors columnPass
    exact infix_append_left _ h1

/-- Witness for the amended C4: a present non-nullable column with two
nulls and a mismatched type still gets exactly one nullability error. -/
theorem nullability_error_exactly_once_witness :
    ∃ errs, validate_column (DataFrame.mk [DFColumn.mk "c" .Utf8 2])
        (SchemaField.mk "c" "int64" false [] none) = .ok errs ∧
      errs.count (mkNullMsg "c") = 1 ∧
      errs <:+: validateErrors (DataFrame.mk [DFColumn.mk "c" .Utf8 2])
        (TableSchema.mk "t" [SchemaField.mk "c" "int64" false [] none]) :=
  nullability_error_exactly_once
    (DataFrame.mk [DFColumn.mk "c" .Utf8 2])
    (TableSchema.mk "t" [SchemaField.mk "c" "int64" false [] none])
    (SchemaField.mk "c" "int64" false [] none)
    (List.mem_singleton.mpr rfl) (by decide) rfl (by decide) ⟨.Int64, rfl⟩

/-- Counterexample to C5 as stated: expected Int64 against an actual
List(Int64) falls in no family (the actual is not an integer type), the
types are distinct, yet the primitive comparison emits no error, because
the family matching is a substring test on the renderings and "Int"
occurs inside "List(Int64)". -/
theorem primitive_comparison_counterexample :
    isIntFamily (PolarsType.ListT .Int64) = false ∧
    isFloatFamily (PolarsType.ListT .Int64) = false ∧
    isDatetimeFamily (PolarsType.ListT .Int64) = false ∧
    PolarsType.Int64.render ≠ (PolarsType.ListT .Int64).render ∧
    ¬ sContains PolarsType.Int64.render "List" ∧
    ¬ sContains PolarsType.Int64.render "Struct" ∧
    validate_simple_type "c" PolarsType.Int64.render (PolarsType.ListT .Int64).render
      (PolarsType.ListT .Int64) PolarsType.Int64 = [] ∧
    columnTypeErrors (PolarsType.ListT .Int64) PolarsType.Int64 "c" = [] :=
  ⟨rfl, rfl, rfl, by decide, by decide, by decide, rfl, rfl⟩

lemma float_render_no_keywords {t : PolarsType} (h : isFloatFamily t = true) :
    ¬ sContains t.render "Int" ∧ ¬ sContains t.render "Datetime" := by
  cases t <;> simp_all [isFloatFamily]
  all_goals exact ⟨by decide, by decide⟩

lemma policy_char_keyword (n : String) (eT aT : PolarsType) (kw : String)
    (hfk : famKeyword eT = some kw)
    (hres : validate_simple_type n eT.render aT.render aT eT
      = if sContains aT.render kw then []
        else if eT.render = aT.render then [] else [mkTypeMismatchMsg n aT eT]) :
    ((validate_simple_type n eT.render aT.render aT eT = []) ↔
      (eT.render = aT.render ∨
        ∃ kw2, famKeyword eT = some kw2 ∧ sContains aT.render kw2)) ∧
    (validate_simple_type n eT.render aT.render aT eT ≠ [] →
      validate_simple_type n eT.render aT.render aT eT
        = [mkTypeMismatchMsg n aT eT]) := by
  constructor
  · rw [hres]
    constructor
    · intro hz
      by_cases h1 : sContains aT.render kw
      · exact Or.inr ⟨kw, hfk, h1⟩
      · rw [if_neg h1] at hz
        by_cases h2 : eT.render = aT.render
        · exact Or.inl h2
        · rw [if_neg h2] at hz
          exact absurd hz (List.cons_ne_nil _ _)
    · rintro (heq | ⟨kw2, hkw2, hc⟩)
      · by_cases h1 : sContains aT.render kw
        · rw [if_pos h1]
        · rw [if_neg h1, if_pos heq]
      · rw [hfk] at hkw2
        injection hkw2 with hkk
        subst hkk
        rw [if_pos hc]
  · intro hne
    rw [hres] at hne ⊢
    by_cases h1 : sContains aT.render kw
    · rw [if_pos h1] at hne
      exact absurd rfl hne
    · rw [if_neg h1] at hne ⊢
      by_cases h2 : eT.render = aT.render
      · rw [if_pos h2] at hne
        exact absurd rfl hne
      · rw [if_neg h2]

lemma policy_char_plain (n : String) (eT aT : PolarsType)
    (hfk : famKeyword eT = none)
    (hres : validate_simple_type n eT.render aT.render aT eT
      = if eT.render = aT.render then [] else [mkTypeMismatchMsg n aT eT]) :
    ((validate_simple_type n eT.render aT.render aT eT = []) ↔
      (eT.render = aT.render ∨
        ∃ kw2, famKeyword eT = some kw2 ∧ sContains aT.render kw2)) ∧
    (validate_simple_type n eT.render aT.render aT eT ≠ [] →
      validate_simple_type n eT.render aT.render aT eT
        = [mkTypeMismatchMsg n aT eT]) := by
  constructor
  · rw [hres]
    constructor
    · intro hz
      by_cases h2 : eT.render = aT.render
      · exact Or.inl h2
      · rw [if_neg h2] at hz
        exact absurd hz (List.cons_ne_nil _ _)
    · rintro (heq | ⟨kw2, hkw2, _⟩)
      · rw [if_pos heq]
      · rw [hfk] at hkw2
        cases hkw2
  · intro hne
    rw [hres] at hne ⊢
    by_cases h2 : eT.render = aT.render
    · rw [if_pos h2] at hne
      exact absurd rfl hne
    · rw [if_neg h2]

/-- Claim C5 (amended): in the primitive comparison, integer/integer,
float/float and datetime/datetime pairs emit no error; in every other
case the comparison emits no error if and only if either the two string
renderings are exactly equal or the expected type's family keyword
("Int" for integers, "Float" for floats, "Datetime" for datetimes)
occurs as a substring of the actual type's rendering — so a compound
actual type whose rendering contains the keyword also passes — and every
emitted error is the single message naming the actual and expected types. -/
theorem primitive_comparison_family_policy (n : String) (eT aT : PolarsType)
    (he : eT ∈ POLARS_DATA_TYPES.map Prod.snd) :
    ((isIntFamily eT = true ∧ isIntFamily aT = true) →
      validate_simple_type n eT.render aT.render aT eT = []) ∧
    ((isFloatFamily eT = true ∧ isFloatFamily aT = true) →
      validate_simple_type n eT.render aT.render aT eT = []) ∧
    ((isDatetimeFamily eT = true ∧ isDatetimeFamily aT = true) →
      validate_simple_type n eT.render aT.render aT eT = []) ∧
    ((validate_simple_type n eT.render aT.render aT eT = []) ↔
      (eT.render = aT.render ∨
        ∃ kw, famKeyword eT = some kw ∧ sContains aT.render kw)) ∧
    (validate_simple_type n eT.render aT.render aT eT ≠ [] →
      validate_simple_type n eT.render aT.render aT eT
        = [mkTypeMismatchMsg n aT eT]) := by
  refine ⟨?_, ?_, ?_, ?_⟩
  · rintro ⟨h1, h2⟩
    unfold validate_simple_type
    rw [if_pos (Or.inl ⟨isInt_render_contains h1, isInt_render_contains h2⟩)]
  · rintro ⟨h1, h2⟩
    unfold validate_simple_type
    have hno : ¬ ((sContains eT.render "Int" ∧ sContains aT.render "Int") ∨
        (sContains eT.render "UInt" ∧ sContains aT.render "UInt")) := by
      rintro (⟨hi, _⟩ | ⟨hu, _⟩)
      · exact (float_render_no_keywords h1).1 hi
      · exact (float_render_no_keywords h1).1 (sContains_int_of_uint hu)
    rw [if_neg hno,
      if_pos ⟨isFloat_render_contains h1, isFloat_render_contains h2⟩]
  · rintro ⟨h1, h2⟩
    unfold validate_simple_type
    split_ifs with ha hb hc hd
    · rfl
    · rfl
    · rfl
    · exact absurd ⟨isDatetime_render_contains h1, isDatetime_render_contains h2⟩ hc
    · exact absurd ⟨isDatetime_render_contains h1, isDatetime_render_contains h2⟩ hc
  · simp only [POLARS_DATA_TYPES, List.map_cons, List.map_nil, List.mem_cons,
      List.not_mem_nil, or_false] at he
    rcases he with rfl | rfl | rfl | rfl | rfl | rfl | rfl | rfl | rfl | rfl | rfl | rfl
      | rfl | rfl | rfl | rfl | rfl | rfl
    · exact policy_char_keyword n _ aT "Int" rfl
        (vst_int_char _ _ _ _ _ (by decide) (by decide) (by decide))
    · exact policy_char_keyword n _ aT "Int" rfl
        (vst_int_char _ _ _ _ _ (by decide) (by decide) (by decide))
    · exact policy_char_keyword n _ aT "Int" rfl
        (vst_int_char _ _ _ _ _ (by decide) (by decide) (by decide))
    · exact policy_char_keyword n _ aT "Int" rfl
        (vst_int_char _ _ _ _ _ (by decide) (by decide) (by decide))
    · exact policy_char_keyword n _ aT "Int" rfl
        (vst_int_char _ _ _ _ _ (by decide) (by decide) (by decide))
    · exact policy_char_keyword n _ aT "Int" rfl
        (vst_int_char _ _ _ _ _ (by decide) (by decide) (by decide))
    · exact policy_char_keyword n _ aT "Int" rfl
        (vst_int_char _ _ _ _ _ (by decide) (by decide) (by decide))
    · exact policy_char_keyword n _ aT "Int" rfl
        (vst_int_char _ _ _ _ _ (by decide) (by decide) (by decide))
    · exact policy_char_keyword n _ aT "Float" rfl
        (vst_float_char _ _ _ _ _ (by decide) (by decide) (by decide))
    · exact policy_char_keyword n _ aT "Float" rfl
        (vst_float_char _ _ _ _ _ (by decide) (by decide) (by decide))
    · exact policy_char_plain n _ aT rfl
        (vst_plain_char _ _ _ _ _ (by decide) (by decide) (by decide))
    · exact policy_char_plain n _ aT rfl
        (vst_plain_char _ _ _ _ _ (by decide) (by decide) (by decide))
    · exact policy_char_plain n _ aT rfl
        (vst_plain_char _ _ _ _ _ (by decide) (by decide) (by decide))
    · exact policy_char_plain n _ aT rfl
        (vst_plain_char _ _ _ _ _ (by decide) (by decide) (by decide))
    · exact policy_char_keyword n _ aT "Datetime" rfl
        (vst_datetime_char _ _ _ _ _ (by decide) (by decide) (by decide))
    · exact policy_char_plain n _ aT rfl
        (vst_plain_char _ _ _ _ _ (by decide) (by decide) (by decide))
    · exact policy_char_plain n _ aT rfl
        (vst_plain_char _ _ _ _ _ (by decide) (by decide) (by decide))
    · exact policy_char_plain n _ aT rfl
        (vst_plain_char _ _ _ _ _ (by decide) (by decide) (by decide))

/-- Witness for the amended C5: Boolean expected against a Utf8 actual is
outside all families and yields the single mismatch message. -/
theorem primitive_comparison_family_policy_witness :
    validate_simple_type "c" PolarsType.Boolean.render PolarsType.Utf8.render
      PolarsType.Utf8 PolarsType.Boolean
      = [mkTypeMismatchMsg "c" PolarsType.Utf8 PolarsType.Boolean] :=
  (primitive_comparison_family_policy "c" PolarsType.Boolean PolarsType.Utf8
    (by simp [POLARS_DATA_TYPES])).2.2.2.2 (by decide)

/-- Counterexample to C6 as stated: both expected and actual are struct
types exposing fields, the expected field a is absent from the actual,
yet the emitted message is not the missing-struct-fields message — it is
"expected a list type", because the expected struct contains a list-typed
field, so its rendering contains "List" while the actual's does not and
the earlier list-existence branch fires first. -/
theorem struct_shallow_check_counterexample :
    hasFieldsAttr (PolarsType.Struct [("a", PolarsType.ListT .Int64)]) = true ∧
    hasFieldsAttr (PolarsType.Struct [("b", PolarsType.Int64)]) = true ∧
    "a" ∈ ([("a", PolarsType.ListT .Int64)].map Prod.fst) ∧
    "a" ∉ ([("b", PolarsType.Int64)].map Prod.fst) ∧
    columnTypeErrors (PolarsType.Struct [("b", PolarsType.Int64)])
        (PolarsType.Struct [("a", PolarsType.ListT .Int64)]) "c"
      = [mkListTypeMsg "c" (PolarsType.Struct [("b", PolarsType.Int64)])] ∧
    mkListTypeMsg "c" (PolarsType.Struct [("b", PolarsType.Int64)])
      ≠ mkStructMissingMsg "c" ["a"] :=
  ⟨rfl, rfl, by decide, by decide, rfl, by decide⟩

/-- Claim C6 (amended): when both the expected and the actual column types
are structs exposing field collections, and it is not the case that the
expected rendering mentions "List" while the actual's does not (that
situation routes to the earlier expected-a-list-type branch instead),
validation compares only top-level field names: a non-empty difference
yields exactly one message listing all and only the missing field names,
and a struct whose expected field names are all present — even with
mismatched nested types — yields no message; moreover when the branch
guards pass but either side does not expose a fields attribute, the check
is skipped silently with no error. -/
theorem struct_shallow_check (n : String) :
    (∀ efs afs : List (String × PolarsType),
      (sContains (PolarsType.Struct efs).render "List" →
        sContains (PolarsType.Struct afs).render "List") →
      ((setDiffNames (efs.map Prod.fst) (afs.map Prod.fst) ≠ [] →
        columnTypeErrors (.Struct afs) (.Struct efs) n
          = [mkStructMissingMsg n (setDiffNames (efs.map Prod.fst) (afs.map Prod.fst))]) ∧
      (∀ x, x ∈ setDiffNames (efs.map Prod.fst) (afs.map Prod.fst) ↔
        x ∈ efs.map Prod.fst ∧ x ∉ afs.map Prod.fst) ∧
      ((∀ x ∈ efs.map Prod.fst, x ∈ afs.map Prod.fst) →
        columnTypeErrors (.Struct afs) (.Struct efs) n = []))) ∧
    (∀ eT dT : PolarsType, sContains eT.render "Struct" →
      sContains dT.render "Struct" →
      (sContains eT.render "List" → sContains dT.render "List") →
      ¬ (hasFieldsAttr eT = true ∧ hasFieldsAttr dT = true) →
      columnTypeErrors dT eT n = []) := by
  constructor
  · intro efs afs hguard
    have hcte : columnTypeErrors (.Struct afs) (.Struct efs) n
        = validate_struct_fields n (.Struct efs) (.Struct afs) := by
      unfold columnTypeErrors
      rw [if_neg (fun hb => hb.2 (struct_render_contains efs)),
        if_neg (fun hb => hb.2 (struct_render_contains afs)),
        if_neg (fun hb => hb.2 (hguard hb.1)),
        if_pos ⟨struct_render_contains efs, rfl, rfl⟩]
    refine ⟨?_, fun x => mem_setDiffNames, ?_⟩
    · intro hne
      rw [hcte]
      unfold validate_struct_fields
      dsimp only
      rw [if_pos hne]
    · intro hcov
      rw [hcte]
      unfold validate_struct_fields
      dsimp only
      rw [if_neg (fun hno => hno (setDiffNames_eq_nil hcov))]
  · intro eT dT hSe hSd hguard hnof
    unfold columnTypeErrors
    rw [if_neg (fun hb => hb.2 hSe),
      if_neg (fun hb => hb.2 hSd),
      if_neg (fun hb => hb.2 (hguard hb.1)),
      if_neg (fun hb => hnof ⟨hb.2.1, hb.2.2⟩)]

/-- Witness for the amended C6: a missing top-level field b is reported in
one message; a list-of-struct pair, which exposes no fields attribute, is
skipped silently. -/
theorem struct_shallow_check_witness :
    columnTypeErrors (PolarsType.Struct [("a", PolarsType.Int64)])
        (PolarsType.Struct [("a", PolarsType.Int64), ("b", PolarsType.Utf8)]) "c"
      = [mkStructMissingMsg "c"
          (setDiffNames (["a", "b"]) (["a"]))] ∧
    columnTypeErrors (PolarsType.ListT (PolarsType.Struct [("a", PolarsType.Utf8)]))
        (PolarsType.ListT (PolarsType.Struct [("a", PolarsType.Int64)])) "c" = [] := by
  constructor
  · have h := ((struct_shallow_check "c").1
      [("a", PolarsType.Int64), ("b", PolarsType.Utf8)] [("a", PolarsType.Int64)]
      (fun hc => absurd hc (by decide))).1 (by decide)
    exact h
  · exact (struct_shallow_check "c").2
      (PolarsType.ListT (PolarsType.Struct [("a", PolarsType.Int64)]))
      (PolarsType.ListT (PolarsType.Struct [("a", PolarsType.Utf8)]))
      (by decide) (by decide) (fun _ => by decide) (by decide)

/-- Counterexample to C9 as stated: in the spec's scenario (schema id
non-nullable integer and age nullable integer; dataset id without nulls,
age with one null, plus an extra column) the returned list has exactly ONE
message, the aggregated extra-columns message, not two. -/
theorem scenario_extra_counterexample :
    validateErrors
        (DataFrame.mk [DFColumn.mk "id" .Int64 0, DFColumn.mk "age" .Int64 1,
          DFColumn.mk "extra" .Utf8 0])
        (TableSchema.mk "t" [SchemaField.mk "id" "int64" false [] none,
          SchemaField.mk "age" "int64" true [] none])
      = [mkExtraColsMsg ["extra"]] ∧
    (validateErrors
        (DataFrame.mk [DFColumn.mk "id" .Int64 0, DFColumn.mk "age" .Int64 1,
          DFColumn.mk "extra" .Utf8 0])
        (TableSchema.mk "t" [SchemaField.mk "id" "int64" false [] none,
          SchemaField.mk "age" "int64" true [] none])).length = 1 :=
  ⟨rfl, rfl⟩

/-- Claim C9 (amended): in the spec's scenario, whatever the extra
column's type and null count, validate_dataframe returns exactly one
message: the extra-columns message naming extra; no nullability error
(age is nullable) and no missing-columns error. -/
theorem scenario_extra_single_message (t : PolarsType) (k : Nat) :
    validate_dataframe
        (DataFrame.mk [DFColumn.mk "id" .Int64 0, DFColumn.mk "age" .Int64 1,
          DFColumn.mk "extra" t k])
        (TableSchema.mk "t" [SchemaField.mk "id" "int64" false [] none,
          SchemaField.mk "age" "int64" true [] none]) false
      = .ok [mkExtraColsMsg ["extra"]] := rfl

/-- Witness for the amended C9: the scenario instantiated with a boolean
extra column holding five nulls. -/
theorem scenario_extra_single_message_witness :
    validate_dataframe
        (DataFrame.mk [DFColumn.mk "id" .Int64 0, DFColumn.mk "age" .Int64 1,
          DFColumn.mk "extra" .Boolean 5])
        (TableSchema.mk "t" [SchemaField.mk "id" "int64" false [] none,
          SchemaField.mk "age" "int64" true [] none]) false
      = .ok [mkExtraColsMsg ["extra"]] :=
  scenario_extra_single_message .Boolean 5

end Beardantic
